import Mathlib

/- A formal model of the vivid-opencv per-frame vision-operator pipeline:
   the cook (dirty-flag) lifecycle shared by the Contours, OpticalFlow and
   BlobTrack operators, the control flow of their process() implementations,
   and the TextureCodec half-float conversion arithmetic from
   texture_converter.cpp.

   Modelling conventions:
   * OpenCV library routines (Canny, findContours, Farneback flow,
     SimpleBlobDetector::detect, the drawing primitives) are external
     collaborators; they are modelled as kernel-function parameters
     constrained only by the cv::Mat size laws the calling code relies on
     (a CV_8UC4 Mat of h rows and w cols holds exactly w*h*4 bytes).
   * C++ float-valued parameters and float arithmetic on exactly
     representable values are modelled with the exact fraction type Frac
     below.  Every arithmetic step modelled with Frac is exact in binary32
     in the source (products of small dyadics, comparisons, clamps), so no
     rounding is lost by the translation; the one transcendental operation
     (powf in the sRGB transfer functions) is kept abstract.
   * The fields and methods inherited from the vivid SDK base classes
     (needsCook/didCook dirty flag, CpuPixelView::valid) are not part of
     this repository; they are modelled from the spec where noted. -/

/-- Exact fractions with explicit numerator and denominator, used to model
C++ float values and float arithmetic that is exact in binary32.  All
fractions built by this development have a positive denominator; value
comparisons are by cross multiplication, which is sound under that
convention. -/
structure Frac where
  num : Int
  den : Nat
deriving Repr, DecidableEq

/-- Embed an integer as a fraction. -/
def Frac.ofInt (n : Int) : Frac := ⟨n, 1⟩

instance : OfNat Frac n := ⟨Frac.ofInt n⟩

instance : Neg Frac := ⟨fun a => ⟨-a.num, a.den⟩⟩

instance : Mul Frac := ⟨fun a b => ⟨a.num * b.num, a.den * b.den⟩⟩

instance : Add Frac := ⟨fun a b => ⟨a.num * b.den + b.num * a.den, a.den * b.den⟩⟩

instance : Sub Frac := ⟨fun a b => ⟨a.num * b.den - b.num * a.den, a.den * b.den⟩⟩

/-- Value equality of fractions (cross multiplication); models C++ float
equality on the modelled values. -/
def Frac.beq (a b : Frac) : Bool := a.num * (b.den : Int) == b.num * (a.den : Int)

/-- Value strict order of fractions (cross multiplication, sound for
positive denominators); models C++ float `<` on the modelled values. -/
def Frac.blt (a b : Frac) : Bool := decide (a.num * (b.den : Int) < b.num * (a.den : Int))

/-- models std::min on floats -/
def Frac.fmin (a b : Frac) : Frac := if Frac.blt b a then b else a

/-- models std::max on floats -/
def Frac.fmax (a b : Frac) : Frac := if Frac.blt a b then b else a

/-- Floor of the represented value (denominator positive). -/
def Frac.floor (a : Frac) : Int := Int.fdiv a.num (a.den : Int)

/-- Round to nearest integer, ties away from zero handled as half-up:
floor (x + 1/2).  Used for the spec-side round-to-nearest. -/
def Frac.roundNearest (a : Frac) : Int := Int.fdiv (2 * a.num + (a.den : Int)) (2 * (a.den : Int))

theorem Frac.beq_self (a : Frac) : Frac.beq a a = true := by
  simp [Frac.beq]

/-- std::clamp(x, lo, hi) as used on float parameters. -/
def Frac.stdClamp (x lo hi : Frac) : Frac :=
  if Frac.blt x lo then lo else if Frac.blt hi x then hi else x

/-- Raw pixel bytes of a 4-channel 8-bit image (BGRA byte order). -/
abbrev Bytes := List Nat

/-- Operator::CpuPixelView: a non-owning view of CPU pixels.  `data = none`
models a null data pointer; the default-constructed view `{}` returned on
the invalid paths is `CpuPixelView.empty`. -/
structure CpuPixelView where
  data : Option Bytes
  width : Int
  height : Int
deriving Repr, DecidableEq

/-- The default-constructed (invalid) view `{}`. -/
def CpuPixelView.empty : CpuPixelView := ⟨none, 0, 0⟩

/-- Modelled from the spec: a "valid" view requires non-null data and
positive dimensions (CpuPixelView::valid is declared in the vivid SDK, not
in this repository). -/
def CpuPixelView.valid (v : CpuPixelView) : Bool :=
  v.data.isSome && decide (0 < v.width) && decide (0 < v.height)

/-- The inputs on which every operator's process() takes an early-exit
(skip) path: missing input operator, invalid pixel view, or an input
dimension below the 16-pixel minimum working size. -/
def skipInput (inp : Option CpuPixelView) : Bool :=
  match inp with
  | none => true
  | some v => !v.valid || decide (v.width < 16) || decide (v.height < 16)

/-- Parameters of the Contours operator (contours.h lines 79-86); float
params as exact fractions, int params as Int. -/
structure ContoursParams where
  threshold1 : Frac
  threshold2 : Frac
  mode : Int
  lineWidth : Frac
  colorR : Frac
  colorG : Frac
  colorB : Frac
  colorA : Frac
deriving Repr, DecidableEq

/-- Header defaults of the Contours parameters. -/
def ContoursParams.defaults : ContoursParams :=
  ⟨⟨100, 1⟩, ⟨200, 1⟩, 0, ⟨2, 1⟩, 0, ⟨1, 1⟩, 0, ⟨1, 1⟩⟩

/-- The OpenCV side of Contours::process (cvtColor, Canny, findContours,
drawContours): from the input dimensions, input bytes and the parameters it
yields the traced contour list and the rendered output bytes.  The size law
is the cv::Mat fact that the CV_8UC4 output Mat of h rows and w cols
(created in process and drawn into in place) holds w*h*4 bytes. -/
structure ContoursKernel where
  run : Nat → Nat → Bytes → ContoursParams → List (List (Int × Int)) × Bytes
  run_size : ∀ w h bs p, (run w h bs p).2.length = w * h * 4

/-- State of a Contours operator instance: the output pixel buffer and
dimensions, the traced contours (Impl), the registered parameters, and the
dirty flag of the cook lifecycle (modelled from the spec; the flag itself
lives in the vivid SDK base class). -/
structure ContoursState where
  outputPixels : Bytes
  outputWidth : Int
  outputHeight : Int
  contours : List (List (Int × Int))
  params : ContoursParams
  dirty : Bool
deriving Repr, DecidableEq

/-- A freshly constructed Contours operator: empty output, no contours,
default parameters, dirty (never cooked). -/
def contoursInit : ContoursState :=
  ⟨[], 0, 0, [], ContoursParams.defaults, true⟩

/-- Contours::cleanup (contours.cpp lines 33-37). -/
def Contours.cleanup (st : ContoursState) : ContoursState :=
  { st with outputPixels := [], outputWidth := 0, outputHeight := 0 }

/-- Contours::cpuPixelView (contours.cpp lines 44-49). -/
def Contours.cpuPixelView (st : ContoursState) : CpuPixelView :=
  if st.outputPixels.isEmpty ∨ st.outputWidth ≤ 0 ∨ st.outputHeight ≤ 0 then
    CpuPixelView.empty
  else
    ⟨some st.outputPixels, st.outputWidth, st.outputHeight⟩

/-- The full-cook branch of Contours::process (lines 82-129): run the
OpenCV pipeline, store the contours, the output buffer and its dimensions,
and clear the dirty flag (didCook). -/
def Contours.cook (K : ContoursKernel) (st : ContoursState) (v : CpuPixelView) : ContoursState :=
  let w := v.width.toNat
  let h := v.height.toNat
  let r := K.run w h (v.data.getD []) st.params
  { st with contours := r.1, outputPixels := r.2,
            outputWidth := v.width, outputHeight := v.height, dirty := false }

/-- Contours::process (contours.cpp lines 51-130): early return when not
dirty; didCook-and-skip on missing input, invalid view, or an input
dimension below 16; otherwise the full cook. -/
def Contours.process (K : ContoursKernel) (st : ContoursState) (input : Option CpuPixelView) :
    ContoursState :=
  if st.dirty = false then st
  else
    match input with
    | none => { st with dirty := false }
    | some v =>
      if v.valid = false then { st with dirty := false }
      else if v.width < 16 ∨ v.height < 16 then { st with dirty := false }
      else Contours.cook K st v

/-- Modelled from the spec: the dirty flag is set when a parameter changes
or the operator's frame advances (the flag-setting side lives in the vivid
SDK). -/
def Contours.markDirty (st : ContoursState) : ContoursState := { st with dirty := true }

/-- Modelled from the spec: writing a parameter marks the operator dirty. -/
def Contours.setParams (st : ContoursState) (p : ContoursParams) : ContoursState :=
  { st with params := p, dirty := true }

/-- Parameters of the BlobTrack operator (blob_track.h lines 53-60),
already cast to float/int as process() reads them. -/
structure BlobParams where
  minArea : Frac
  maxArea : Frac
  minCircularity : Frac
  minConvexity : Frac
  minInertia : Frac
  detectBright : Int
  detectDark : Int
  threshold : Frac
deriving Repr, DecidableEq

/-- Header defaults of the BlobTrack parameters. -/
def BlobParams.defaults : BlobParams :=
  ⟨⟨100, 1⟩, ⟨50000, 1⟩, ⟨1, 10⟩, ⟨1, 2⟩, ⟨1, 10⟩, 1, 1, ⟨128, 1⟩⟩

/-- The cached detector-construction parameters (BlobTrack::Impl lines
22-29), each initialised to -1. -/
structure BlobCache where
  lastMinArea : Frac
  lastMaxArea : Frac
  lastMinCircularity : Frac
  lastMinConvexity : Frac
  lastMinInertia : Frac
  lastDetectBright : Int
  lastDetectDark : Int
  lastThreshold : Frac
deriving Repr, DecidableEq

/-- The sentinel cache of a fresh Impl (every field -1). -/
def BlobCache.init : BlobCache :=
  ⟨⟨-1, 1⟩, ⟨-1, 1⟩, ⟨-1, 1⟩, ⟨-1, 1⟩, ⟨-1, 1⟩, -1, -1, ⟨-1, 1⟩⟩

/-- The cache written right after a rebuild (blob_track.cpp lines 137-145):
a copy of the current parameter values. -/
def BlobCache.ofParams (p : BlobParams) : BlobCache :=
  ⟨p.minArea, p.maxArea, p.minCircularity, p.minConvexity, p.minInertia,
   p.detectBright, p.detectDark, p.threshold⟩

/-- The paramsChanged test of BlobTrack::process (lines 90-98): any cached
value differing from the current parameter value. -/
def blobParamsChanged (c : BlobCache) (p : BlobParams) : Bool :=
  !Frac.beq c.lastMinArea p.minArea ||
  !Frac.beq c.lastMaxArea p.maxArea ||
  !Frac.beq c.lastMinCircularity p.minCircularity ||
  !Frac.beq c.lastMinConvexity p.minConvexity ||
  !Frac.beq c.lastMinInertia p.minInertia ||
  c.lastDetectBright != p.detectBright ||
  c.lastDetectDark != p.detectDark ||
  !Frac.beq c.lastThreshold p.threshold

/-- cv::SimpleBlobDetector::Params as filled in by BlobTrack::process
(lines 101-133); blobColor keeps OpenCV's default 0 when the color filter
is disabled. -/
structure SBDParams where
  minThreshold : Frac
  maxThreshold : Frac
  thresholdStep : Frac
  filterByArea : Bool
  minArea : Frac
  maxArea : Frac
  filterByCircularity : Bool
  minCircularity : Frac
  filterByConvexity : Bool
  minConvexity : Frac
  filterByInertia : Bool
  minInertiaVal : Frac
  filterByColor : Bool
  blobColor : Nat
deriving Repr, DecidableEq

/-- Construction of the detector parameters (blob_track.cpp lines 101-133).
The shape filters are enabled when the corresponding minimum exceeds 0.01;
the color filter is set from the polarity flags, with "both" (and "neither")
disabling it. -/
def buildDetectorParams (p : BlobParams) : SBDParams :=
  let colorPair : Bool × Nat :=
    if p.detectBright ≠ 0 ∧ p.detectDark = 0 then (true, 255)
    else if p.detectBright = 0 ∧ p.detectDark ≠ 0 then (true, 0)
    else (false, 0)
  { minThreshold := p.threshold - ⟨50, 1⟩
    maxThreshold := p.threshold + ⟨50, 1⟩
    thresholdStep := ⟨10, 1⟩
    filterByArea := true
    minArea := p.minArea
    maxArea := p.maxArea
    filterByCircularity := Frac.blt ⟨1, 100⟩ p.minCircularity
    minCircularity := p.minCircularity
    filterByConvexity := Frac.blt ⟨1, 100⟩ p.minConvexity
    minConvexity := p.minConvexity
    filterByInertia := Frac.blt ⟨1, 100⟩ p.minInertia
    minInertiaVal := p.minInertia
    filterByColor := colorPair.1
    blobColor := colorPair.2 }

/-- The kind of cv::threshold applied for the visualization binarization
(blob_track.cpp lines 164-173): standard THRESH_BINARY for bright-only and
for "both"; inverted THRESH_BINARY_INV for dark-only. -/
inductive ThreshKind where
  | binary
  | binaryInv
deriving Repr, DecidableEq

/-- Selection of the binarization kind from the polarity flags
(blob_track.cpp lines 166-173). -/
def blobBinarizeKind (p : BlobParams) : ThreshKind :=
  if p.detectBright ≠ 0 ∧ p.detectDark = 0 then ThreshKind.binary
  else if p.detectBright = 0 ∧ p.detectDark ≠ 0 then ThreshKind.binaryInv
  else ThreshKind.binary

/-- A detected blob keypoint (cv::KeyPoint as used here). -/
structure Keypoint where
  x : Frac
  y : Frac
  size : Frac
deriving Repr, DecidableEq

/-- The OpenCV side of BlobTrack::process: detect runs cvtColor plus
SimpleBlobDetector::detect with the given detector parameters; render
models the visualization (copy of the input, cv::threshold of the selected
kind, findContours, and the contour/keypoint overlays).  The size law is
the cv::Mat fact that the output Mat (a copy of the h-by-w CV_8UC4 input,
drawn into in place) holds w*h*4 bytes. -/
structure BlobKernel where
  detect : SBDParams → Nat → Nat → Bytes → List Keypoint
  render : Nat → Nat → Bytes → BlobParams → ThreshKind → List Keypoint → Bytes
  render_size : ∀ w h bs p t ks, (render w h bs p t ks).length = w * h * 4

/-- State of a BlobTrack operator instance (CPU-output version of
blob_track.cpp).  `buildCount` counts detector constructions; it is the
build counter the spec names for verifying the rebuild gating and is not a
field of the C++ object. -/
structure BlobState where
  outputPixels : Bytes
  outputWidth : Int
  outputHeight : Int
  detector : Option SBDParams
  keypoints : List Keypoint
  cache : BlobCache
  params : BlobParams
  dirty : Bool
  buildCount : Nat
deriving Repr, DecidableEq

/-- A freshly constructed BlobTrack operator. -/
def blobInit : BlobState :=
  ⟨[], 0, 0, none, [], BlobCache.init, BlobParams.defaults, true, 0⟩

/-- BlobTrack::cleanup (blob_track.cpp lines 45-51): clears the output
buffer and dimensions, releases the detector and clears the keypoints; the
parameter cache is left as it is. -/
def BlobTrack.cleanup (st : BlobState) : BlobState :=
  { st with outputPixels := [], outputWidth := 0, outputHeight := 0,
            detector := none, keypoints := [] }

/-- BlobTrack::cpuPixelView (blob_track.cpp lines 57-62). -/
def BlobTrack.cpuPixelView (st : BlobState) : CpuPixelView :=
  if st.outputPixels.isEmpty ∨ st.outputWidth ≤ 0 ∨ st.outputHeight ≤ 0 then
    CpuPixelView.empty
  else
    ⟨some st.outputPixels, st.outputWidth, st.outputHeight⟩

/-- The full-cook branch of BlobTrack::process (lines 89-215): rebuild the
detector when absent or when any cached parameter differs, cache the
parameters on rebuild, detect, render the visualization, store the output,
and clear the dirty flag. -/
def BlobTrack.cook (K : BlobKernel) (st : BlobState) (v : CpuPixelView) : BlobState :=
  let w := v.width.toNat
  let h := v.height.toNat
  let bs := v.data.getD []
  let changed := blobParamsChanged st.cache st.params
  let rebuild := st.detector.isNone || changed
  let det := if rebuild then buildDetectorParams st.params
             else st.detector.getD (buildDetectorParams st.params)
  let cache := if rebuild then BlobCache.ofParams st.params else st.cache
  let bc := if rebuild then st.buildCount + 1 else st.buildCount
  let kps := K.detect det w h bs
  let out := K.render w h bs st.params (blobBinarizeKind st.params) kps
  { st with detector := some det, cache := cache, buildCount := bc,
            keypoints := kps, outputPixels := out,
            outputWidth := v.width, outputHeight := v.height, dirty := false }

/-- BlobTrack::process (blob_track.cpp lines 64-216): early return when not
dirty; didCook-and-skip on missing input, invalid view, or an input
dimension below 16; otherwise the full cook. -/
def BlobTrack.process (K : BlobKernel) (st : BlobState) (input : Option CpuPixelView) :
    BlobState :=
  if st.dirty = false then st
  else
    match input with
    | none => { st with dirty := false }
    | some v =>
      if v.valid = false then { st with dirty := false }
      else if v.width < 16 ∨ v.height < 16 then { st with dirty := false }
      else BlobTrack.cook K st v

/-- Modelled from the spec: the dirty flag is set when a parameter changes
or the operator's frame advances. -/
def BlobTrack.markDirty (st : BlobState) : BlobState := { st with dirty := true }

/-- Modelled from the spec: writing a parameter marks the operator dirty. -/
def BlobTrack.setParams (st : BlobState) (p : BlobParams) : BlobState :=
  { st with params := p, dirty := true }

/-- Parameters of the OpticalFlow operator (optical_flow.h lines 61-69). -/
structure FlowParams where
  scale : Frac
  pyrScale : Frac
  levels : Int
  winSize : Int
  iterations : Int
  polyN : Int
  polySigma : Frac
  vizMode : Int
  sensitivity : Frac
deriving Repr, DecidableEq

/-- Header defaults of the OpticalFlow parameters. -/
def FlowParams.defaults : FlowParams :=
  ⟨⟨15, 100⟩, ⟨1, 2⟩, 1, 9, 1, 5, ⟨11, 10⟩, 0, ⟨1, 1⟩⟩

/-- Declared minimum of the scale parameter (optical_flow.h line 61). -/
def OpticalFlow.scaleDeclaredMin : Frac := ⟨1, 20⟩

/-- Declared maximum of the scale parameter (optical_flow.h line 61). -/
def OpticalFlow.scaleDeclaredMax : Frac := ⟨1, 1⟩

/-- The working-resolution scale factor actually used by process:
std::clamp(scale, 0.1f, 1.0f) (optical_flow.cpp line 136 / the same line of
the CPU-output variant). -/
def OpticalFlow.effectiveScale (scale : Frac) : Frac :=
  Frac.stdClamp scale ⟨1, 10⟩ ⟨1, 1⟩

/-- A grayscale working-resolution frame (cv::Mat CV_8U): dimensions plus
pixel bytes. -/
structure GrayImage where
  width : Nat
  height : Nat
  pixels : Bytes
deriving Repr, DecidableEq

/-- The empty cv::Mat (a fresh or released prevGray). -/
def GrayImage.empty : GrayImage := ⟨0, 0, []⟩

/-- A dense flow field (cv::Mat CV_32FC2): dimensions plus one 2-component
vector per cell. -/
structure FlowField where
  width : Nat
  height : Nat
  vecs : List (Frac × Frac)
deriving Repr, DecidableEq

/-- The empty cv::Mat (a fresh or released flow field). -/
def FlowField.empty : FlowField := ⟨0, 0, []⟩

/-- A solid opaque black CV_8UC4 frame: the Scalar(0,0,0,255) fill of the
output Mat (BGRA bytes 0,0,0,255 per pixel). -/
def blackBGRA (w h : Nat) : Bytes := (List.replicate (w * h) [0, 0, 0, 255]).flatten

theorem blackBGRA_length (w h : Nat) : (blackBGRA w h).length = w * h * 4 := by
  unfold blackBGRA
  induction w * h with
  | zero => simp
  | succ n ih => simp [List.replicate_succ, ih]; ring

/-- The OpenCV side of OpticalFlow::process.  downGray models the
resize-to-working-resolution plus cvtColor-to-gray step (the target
dimensions are computed by process); farneback models
cv::calcOpticalFlowFarneback; visualize models the whole visualization
stage (lines 120-196 of the CPU-output variant: per-mode rendering of the
flow field over the black or input background and the upsample to full
resolution), whose result replaces the full-resolution output Mat and hence
holds w*h*4 bytes. -/
structure FlowKernel where
  downGray : Nat → Nat → Bytes → Nat → Nat → Bytes
  farneback : GrayImage → GrayImage → FlowField → FlowParams → FlowField
  visualize : Nat → Nat → Nat → Nat → Bytes → FlowParams → FlowField → Bytes
  visualize_size : ∀ w h pw ph bs p f, (visualize w h pw ph bs p f).length = w * h * 4

/-- State of an OpticalFlow operator instance (CPU-output variant):
output buffer and dimensions, the Impl state (previous grayscale frame,
flow field, hasPrevFrame), parameters and the dirty flag. -/
structure FlowState where
  outputPixels : Bytes
  outputWidth : Int
  outputHeight : Int
  prevGray : GrayImage
  flow : FlowField
  hasPrevFrame : Bool
  params : FlowParams
  dirty : Bool
deriving Repr, DecidableEq

/-- A freshly constructed OpticalFlow operator. -/
def flowInit : FlowState :=
  ⟨[], 0, 0, GrayImage.empty, FlowField.empty, false, FlowParams.defaults, true⟩

/-- OpticalFlow::cleanup (CPU-output variant lines 37-44). -/
def OpticalFlow.cleanup (st : FlowState) : FlowState :=
  { st with outputPixels := [], outputWidth := 0, outputHeight := 0,
            prevGray := GrayImage.empty, flow := FlowField.empty, hasPrevFrame := false }

/-- OpticalFlow::cpuPixelView (CPU-output variant lines 50-55). -/
def OpticalFlow.cpuPixelView (st : FlowState) : CpuPixelView :=
  if st.outputPixels.isEmpty ∨ st.outputWidth ≤ 0 ∨ st.outputHeight ≤ 0 then
    CpuPixelView.empty
  else
    ⟨some st.outputPixels, st.outputWidth, st.outputHeight⟩

/-- The working (processing) dimensions computed by process (lines 87-91):
the input dimensions scaled by the clamped scale factor, truncated to int,
floored at 16.  The int*float product is modelled exactly; a 1-ulp float
deviation could only shift the working resolution by one pixel and no claim
depends on its exact value. -/
def OpticalFlow.procDims (w h : Nat) (s : Frac) : Nat × Nat :=
  let pw := (Frac.floor (⟨(w : Int), 1⟩ * s)).toNat
  let ph := (Frac.floor (⟨(h : Int), 1⟩ * s)).toNat
  (if pw < 16 then 16 else pw, if ph < 16 then 16 else ph)

/-- The working-resolution luminance frame computed by process (lines
93-102): when the clamped scale is below 0.99 the input is resized to the
working dimensions before the gray conversion, otherwise the input is used
as is. -/
def OpticalFlow.workingLuminance (K : FlowKernel) (p : FlowParams) (w h : Nat) (bs : Bytes) :
    GrayImage :=
  let s := OpticalFlow.effectiveScale p.scale
  let pd := OpticalFlow.procDims w h s
  let gw := if Frac.blt s ⟨99, 100⟩ then pd.1 else w
  let gh := if Frac.blt s ⟨99, 100⟩ then pd.2 else h
  ⟨gw, gh, K.downGray w h bs gw gh⟩

/-- The full-cook branch of OpticalFlow::process (lines 83-209): compute
the working-resolution luminance; if a previous frame of the same working
resolution exists, run Farneback flow and the visualization, else leave the
solid opaque black output; in either case store the current luminance as
prevGray, set hasPrevFrame, store the output and clear the dirty flag. -/
def OpticalFlow.cook (K : FlowKernel) (st : FlowState) (v : CpuPixelView) : FlowState :=
  let w := v.width.toNat
  let h := v.height.toNat
  let bs := v.data.getD []
  let s := OpticalFlow.effectiveScale st.params.scale
  let pd := OpticalFlow.procDims w h s
  let gray := OpticalFlow.workingLuminance K st.params w h bs
  if st.hasPrevFrame && (st.prevGray.width == gray.width && st.prevGray.height == gray.height) then
    let flow := K.farneback st.prevGray gray st.flow st.params
    let out := K.visualize w h pd.1 pd.2 bs st.params flow
    { st with prevGray := gray, flow := flow, hasPrevFrame := true,
              outputPixels := out, outputWidth := v.width, outputHeight := v.height,
              dirty := false }
  else
    { st with prevGray := gray, hasPrevFrame := true,
              outputPixels := blackBGRA w h, outputWidth := v.width, outputHeight := v.height,
              dirty := false }

/-- OpticalFlow::process (CPU-output variant lines 57-210): early return
when not dirty; didCook-and-skip on missing input, invalid view, or an
input dimension below 16; otherwise the full cook. -/
def OpticalFlow.process (K : FlowKernel) (st : FlowState) (input : Option CpuPixelView) :
    FlowState :=
  if st.dirty = false then st
  else
    match input with
    | none => { st with dirty := false }
    | some v =>
      if v.valid = false then { st with dirty := false }
      else if v.width < 16 ∨ v.height < 16 then { st with dirty := false }
      else OpticalFlow.cook K st v

/-- Modelled from the spec: the dirty flag is set when a parameter changes
or the operator's frame advances. -/
def OpticalFlow.markDirty (st : FlowState) : FlowState := { st with dirty := true }

/-- Modelled from the spec: writing a parameter marks the operator dirty. -/
def OpticalFlow.setParams (st : FlowState) (p : FlowParams) : FlowState :=
  { st with params := p, dirty := true }

/-- halfToFloat (texture_converter.cpp lines 148-159) on a 16-bit half
pattern, for the finite cases (exponent field below 31): zero for a zero
exponent field, else (1 + mant/1024) * 2^(exp-15), negated by the sign bit.
Every step of the C++ computation is exact in binary32, so the fraction is
the exact value produced.  The exponent-31 branch returns plus or minus
infinity in the source; theorems about this model carry a finiteness
hypothesis excluding it. -/
def halfToFrac (hb : Nat) : Frac :=
  let sign := hb / 2 ^ 15 % 2
  let exp := hb / 2 ^ 10 % 2 ^ 5
  let mant := hb % 2 ^ 10
  if exp = 0 then 0
  else
    let m : Frac := ⟨(1024 : Int) + Int.ofNat mant, 1024⟩
    let f := if 15 ≤ exp then m * ⟨((2 : Int) ^ (exp - 15)), 1⟩ else m * ⟨1, 2 ^ (15 - exp)⟩
    if sign = 1 then -f else f

/-- The exponent field of a half pattern; 31 encodes infinity, which the
finite model above excludes. -/
def halfExpField (hb : Nat) : Nat := hb / 2 ^ 10 % 2 ^ 5

/-- The clamped scaled alpha value min(255, max(0, a*255)) of the decode
direction (texture_converter.cpp line 175).  All float steps are exact in
binary32 (the half value has at most 11 significand bits, so a*255 is
exact). -/
def alphaClampedF (hb : Nat) : Frac :=
  Frac.fmin 255 (Frac.fmax 0 (halfToFrac hb * 255))

/-- The alpha channel of the decode direction (texture_converter.cpp line
175): uint8_t cast of min(255, max(0, a*255)).  The cast truncates toward
zero; the clamped value is nonnegative, so the cast is the floor. -/
def decodeAlpha (hb : Nat) : Nat := (alphaClampedF hb).floor.toNat

/-- Modelled from the spec: the alpha channel "likewise scaled to [0,255]
with round-to-nearest" — the same clamped value, rounded to the nearest
integer instead of truncated. -/
def specAlphaRound (hb : Nat) : Nat := (alphaClampedF hb).roundNearest.toNat

/-- linearToSrgb (texture_converter.cpp lines 139-145) with the
transcendental powf(linear, 1/2.4) kept abstract as qpow: clamp to [0,1],
linear segment below 0.0031308, else 1.055 * linear^(1/2.4) - 0.055. -/
def linearToSrgbF (qpow : Frac → Frac) (linear : Frac) : Frac :=
  let l := Frac.fmax 0 (Frac.fmin 1 linear)
  if Frac.blt ⟨31308, 10 ^ 7⟩ l then ⟨1055, 1000⟩ * qpow l - ⟨55, 1000⟩
  else l * ⟨1292, 100⟩

/-- A color channel of the decode direction (texture_converter.cpp lines
172-174): uint8_t cast of linearToSrgb(c) * 255 + 0.5.  The cast truncates
toward zero, which is the floor on the nonnegative values the theorems
restrict to. -/
def decodeColorTerm (qpow : Frac → Frac) (hb : Nat) : Int :=
  Frac.floor (linearToSrgbF qpow (halfToFrac hb) * 255 + ⟨1, 2⟩)

/-- Modelled from the spec: a color channel is the sRGB-encoded value
"scaled to [0,255] with round-to-nearest". -/
def specColorRound (qpow : Frac → Frac) (hb : Nat) : Int :=
  Frac.roundNearest (linearToSrgbF qpow (halfToFrac hb) * 255)

/-- The binary32 bit pattern of 65504.0f, the largest finite half value and
the clamp bound of floatToHalf. -/
def bits65504 : Nat := 0x477FE000

/-- The clamp f = max(0.0f, min(65504.0f, f)) of floatToHalf
(texture_converter.cpp line 219) on binary32 bit patterns.  NaN propagates
through both std comparisons to 65504; any negative value (and -0) becomes
+0; positive values above 65504 become 65504.  For nonnegative non-NaN
floats the IEEE order agrees with the integer order of the patterns. -/
def floatClampBits (bits : Nat) : Nat :=
  let expF := bits / 2 ^ 23 % 2 ^ 8
  let mant := bits % 2 ^ 23
  if expF = 255 ∧ mant ≠ 0 then bits65504
  else if bits / 2 ^ 31 % 2 = 1 then 0
  else if bits65504 < bits then bits65504
  else bits

/-- The bit-level half packing of floatToHalf (texture_converter.cpp lines
221-234): rebias the exponent by -127+15; a non-positive rebased exponent
underflows to a signed zero, 31 or above saturates to infinity, otherwise
the exponent and the top 10 mantissa bits are packed. -/
def packHalfBits (bits : Nat) : Nat :=
  let sign := bits / 2 ^ 31 % 2
  let expv : Int := ((bits / 2 ^ 23 % 2 ^ 8 : Nat) : Int) - 127 + 15
  let mant := bits % 2 ^ 23
  if expv ≤ 0 then sign * 2 ^ 15
  else if 31 ≤ expv then sign * 2 ^ 15 + 0x7C00
  else sign * 2 ^ 15 + expv.toNat * 2 ^ 10 + mant / 2 ^ 13

/-- floatToHalf (texture_converter.cpp lines 217-235): the clamp to
[0, 65504] followed by the bit-level packing. -/
def floatToHalf (bits : Nat) : Nat := packHalfBits (floatClampBits bits)

/-- A concrete OpenCV kernel instance for Contours, used to evaluate the
model at concrete inputs. -/
def trivContoursKernel : ContoursKernel where
  run := fun w h _ _ => ([], List.replicate (w * h * 4) 0)
  run_size := by intro w h bs p; simp

/-- A concrete OpenCV kernel instance for BlobTrack. -/
def trivBlobKernel : BlobKernel where
  detect := fun _ _ _ _ => []
  render := fun w h _ _ _ _ => List.replicate (w * h * 4) 0
  render_size := by intro w h bs p t ks; simp

/-- A concrete OpenCV kernel instance for OpticalFlow. -/
def trivFlowKernel : FlowKernel where
  downGray := fun _ _ _ pw ph => List.replicate (pw * ph) 0
  farneback := fun _ _ f _ => f
  visualize := fun w h _ _ _ _ _ => List.replicate (w * h * 4) 0
  visualize_size := by intro w h pw ph bs p f; simp

theorem contours_process_skip (K : ContoursKernel) (st : ContoursState)
    (inp : Option CpuPixelView) (h : skipInput inp = true) :
    Contours.process K st inp = { st with dirty := false } := by
  cases hd : st.dirty with
  | false =>
    have he : Contours.process K st inp = st := by simp [Contours.process, hd]
    rw [he]; cases st; simp_all
  | true =>
    cases inp with
    | none => simp [Contours.process, hd]
    | some v =>
      simp only [skipInput, Bool.or_eq_true, Bool.not_eq_true', decide_eq_true_eq] at h
      rcases h with (hv | hw) | hh
      · simp [Contours.process, hd, hv]
      · simp [Contours.process, hd, Or.inl hw]
      · simp [Contours.process, hd, Or.inr hh]

theorem blob_process_skip (K : BlobKernel) (st : BlobState)
    (inp : Option CpuPixelView) (h : skipInput inp = true) :
    BlobTrack.process K st inp = { st with dirty := false } := by
  cases hd : st.dirty with
  | false =>
    have he : BlobTrack.process K st inp = st := by simp [BlobTrack.process, hd]
    rw [he]; cases st; simp_all
  | true =>
    cases inp with
    | none => simp [BlobTrack.process, hd]
    | some v =>
      simp only [skipInput, Bool.or_eq_true, Bool.not_eq_true', decide_eq_true_eq] at h
      rcases h with (hv | hw) | hh
      · simp [BlobTrack.process, hd, hv]
      · simp [BlobTrack.process, hd, Or.inl hw]
      · simp [BlobTrack.process, hd, Or.inr hh]

theorem flow_process_skip (K : FlowKernel) (st : FlowState)
    (inp : Option CpuPixelView) (h : skipInput inp = true) :
    OpticalFlow.process K st inp = { st with dirty := false } := by
  cases hd : st.dirty with
  | false =>
    have he : OpticalFlow.process K st inp = st := by simp [OpticalFlow.process, hd]
    rw [he]; cases st; simp_all
  | true =>
    cases inp with
    | none => simp [OpticalFlow.process, hd]
    | some v =>
      simp only [skipInput, Bool.or_eq_true, Bool.not_eq_true', decide_eq_true_eq] at h
      rcases h with (hv | hw) | hh
      · simp [OpticalFlow.process, hd, hv]
      · simp [OpticalFlow.process, hd, Or.inl hw]
      · simp [OpticalFlow.process, hd, Or.inr hh]

/-- C1: for each of Contours, OpticalFlow and BlobTrack, a process call
whose input operator is missing, whose input pixel view is invalid, or
whose input has a dimension below 16, clears the dirty flag (didCook),
leaves every other piece of state — in particular the previously computed
output buffer — byte-for-byte unchanged, runs no algorithm computation
(the result does not depend on the OpenCV kernels), and raises no error
(the model is a total function). -/
theorem c1_skip_contract :
    (∀ (K K' : ContoursKernel) (st : ContoursState) (inp : Option CpuPixelView),
      skipInput inp = true →
        Contours.process K st inp = { st with dirty := false } ∧
        Contours.process K st inp = Contours.process K' st inp) ∧
    (∀ (K K' : BlobKernel) (st : BlobState) (inp : Option CpuPixelView),
      skipInput inp = true →
        BlobTrack.process K st inp = { st with dirty := false } ∧
        BlobTrack.process K st inp = BlobTrack.process K' st inp) ∧
    (∀ (K K' : FlowKernel) (st : FlowState) (inp : Option CpuPixelView),
      skipInput inp = true →
        OpticalFlow.process K st inp = { st with dirty := false } ∧
        OpticalFlow.process K st inp = OpticalFlow.process K' st inp) := by
  refine ⟨fun K K' st inp h => ?_, fun K K' st inp h => ?_, fun K K' st inp h => ?_⟩
  · exact ⟨contours_process_skip K st inp h,
      (contours_process_skip K st inp h).trans (contours_process_skip K' st inp h).symm⟩
  · exact ⟨blob_process_skip K st inp h,
      (blob_process_skip K st inp h).trans (blob_process_skip K' st inp h).symm⟩
  · exact ⟨flow_process_skip K st inp h,
      (flow_process_skip K st inp h).trans (flow_process_skip K' st inp h).symm⟩

/-- Witness for C1 at a concrete invalid view (null data). -/
theorem c1_skip_contract_witness :
    skipInput (some ⟨none, 32, 32⟩) = true ∧
    Contours.process trivContoursKernel contoursInit (some ⟨none, 32, 32⟩) =
      { contoursInit with dirty := false } :=
  ⟨by decide,
   (c1_skip_contract.1 trivContoursKernel trivContoursKernel contoursInit
      (some ⟨none, 32, 32⟩) (by decide)).1⟩

theorem contours_process_not_dirty (K : ContoursKernel) (st : ContoursState)
    (inp : Option CpuPixelView) (h : st.dirty = false) :
    Contours.process K st inp = st := by
  simp [Contours.process, h]

theorem blob_process_not_dirty (K : BlobKernel) (st : BlobState)
    (inp : Option CpuPixelView) (h : st.dirty = false) :
    BlobTrack.process K st inp = st := by
  simp [BlobTrack.process, h]

theorem flow_process_not_dirty (K : FlowKernel) (st : FlowState)
    (inp : Option CpuPixelView) (h : st.dirty = false) :
    OpticalFlow.process K st inp = st := by
  simp [OpticalFlow.process, h]

theorem contours_process_clears_dirty (K : ContoursKernel) (st : ContoursState)
    (inp : Option CpuPixelView) : (Contours.process K st inp).dirty = false := by
  cases hd : st.dirty with
  | false => rw [contours_process_not_dirty K st inp hd]; exact hd
  | true =>
    cases inp with
    | none => simp [Contours.process, hd]
    | some v =>
      simp only [Contours.process, hd]
      split
      · simp_all
      · split
        · simp
        · split
          · rfl
          · simp [Contours.cook]

theorem blob_process_clears_dirty (K : BlobKernel) (st : BlobState)
    (inp : Option CpuPixelView) : (BlobTrack.process K st inp).dirty = false := by
  cases hd : st.dirty with
  | false => rw [blob_process_not_dirty K st inp hd]; exact hd
  | true =>
    cases inp with
    | none => simp [BlobTrack.process, hd]
    | some v =>
      simp only [BlobTrack.process, hd]
      split
      · simp_all
      · split
        · simp
        · split
          · rfl
          · simp [BlobTrack.cook]

theorem flow_process_clears_dirty (K : FlowKernel) (st : FlowState)
    (inp : Option CpuPixelView) : (OpticalFlow.process K st inp).dirty = false := by
  cases hd : st.dirty with
  | false => rw [flow_process_not_dirty K st inp hd]; exact hd
  | true =>
    cases inp with
    | none => simp [OpticalFlow.process, hd]
    | some v =>
      simp only [OpticalFlow.process, hd]
      split
      · simp_all
      · split
        · simp
        · split
          · rfl
          · simp only [OpticalFlow.cook]
            split <;> simp

/-- C2: for every operator, a process call finding the dirty flag clear
returns immediately and changes no state; consequently a second process
call with unchanged input and parameters — even under different OpenCV
kernels, so no recomputation can contribute — returns the state of the
first call byte-for-byte. -/
theorem c2_idempotent_process :
    (∀ (K : ContoursKernel) (st : ContoursState) (inp : Option CpuPixelView),
      st.dirty = false → Contours.process K st inp = st) ∧
    (∀ (K K' : ContoursKernel) (st : ContoursState) (inp : Option CpuPixelView),
      Contours.process K' (Contours.process K st inp) inp = Contours.process K st inp) ∧
    (∀ (K : BlobKernel) (st : BlobState) (inp : Option CpuPixelView),
      st.dirty = false → BlobTrack.process K st inp = st) ∧
    (∀ (K K' : BlobKernel) (st : BlobState) (inp : Option CpuPixelView),
      BlobTrack.process K' (BlobTrack.process K st inp) inp = BlobTrack.process K st inp) ∧
    (∀ (K : FlowKernel) (st : FlowState) (inp : Option CpuPixelView),
      st.dirty = false → OpticalFlow.process K st inp = st) ∧
    (∀ (K K' : FlowKernel) (st : FlowState) (inp : Option CpuPixelView),
      OpticalFlow.process K' (OpticalFlow.process K st inp) inp = OpticalFlow.process K st inp) :=
  ⟨fun K st inp h => contours_process_not_dirty K st inp h,
   fun K K' st inp =>
     contours_process_not_dirty K' _ inp (contours_process_clears_dirty K st inp),
   fun K st inp h => blob_process_not_dirty K st inp h,
   fun K K' st inp =>
     blob_process_not_dirty K' _ inp (blob_process_clears_dirty K st inp),
   fun K st inp h => flow_process_not_dirty K st inp h,
   fun K K' st inp =>
     flow_process_not_dirty K' _ inp (flow_process_clears_dirty K st inp)⟩

/-- Witness for C2 at a concrete clean state. -/
theorem c2_idempotent_process_witness :
    ({ contoursInit with dirty := false } : ContoursState).dirty = false ∧
    Contours.process trivContoursKernel { contoursInit with dirty := false } none =
      { contoursInit with dirty := false } :=
  ⟨rfl, c2_idempotent_process.1 trivContoursKernel { contoursInit with dirty := false } none rfl⟩

theorem blobParamsChanged_ofParams (p : BlobParams) :
    blobParamsChanged (BlobCache.ofParams p) p = false := by
  simp [blobParamsChanged, BlobCache.ofParams, Frac.beq_self]

theorem blob_process_to_cook (K : BlobKernel) (st : BlobState) (v : CpuPixelView)
    (hd : st.dirty = true) (hv : v.valid = true) (hw : 16 ≤ v.width) (hh : 16 ≤ v.height) :
    BlobTrack.process K st (some v) = BlobTrack.cook K st v := by
  have hno : ¬(v.width < 16 ∨ v.height < 16) := by omega
  simp [BlobTrack.process, hd, hv, hno]

theorem blob_cook_buildCount (K : BlobKernel) (st : BlobState) (v : CpuPixelView) :
    (BlobTrack.cook K st v).buildCount =
      if st.detector.isNone || blobParamsChanged st.cache st.params then st.buildCount + 1
      else st.buildCount := by
  simp only [BlobTrack.cook]

theorem blob_cook_detector (K : BlobKernel) (st : BlobState) (v : CpuPixelView) :
    (BlobTrack.cook K st v).detector =
      some (if st.detector.isNone || blobParamsChanged st.cache st.params then
              buildDetectorParams st.params
            else st.detector.getD (buildDetectorParams st.params)) := by
  simp only [BlobTrack.cook]

theorem blob_cook_cache (K : BlobKernel) (st : BlobState) (v : CpuPixelView) :
    (BlobTrack.cook K st v).cache =
      if st.detector.isNone || blobParamsChanged st.cache st.params then
        BlobCache.ofParams st.params
      else st.cache := by
  simp only [BlobTrack.cook]

theorem blob_cook_params (K : BlobKernel) (st : BlobState) (v : CpuPixelView) :
    (BlobTrack.cook K st v).params = st.params := by
  simp only [BlobTrack.cook]

/-- After any cook the cached parameters match the current parameters:
either they already did (no rebuild) or the rebuild copied them. -/
theorem blob_cook_cache_settled (K : BlobKernel) (st : BlobState) (v : CpuPixelView) :
    blobParamsChanged (BlobTrack.cook K st v).cache (BlobTrack.cook K st v).params = false := by
  rw [blob_cook_cache, blob_cook_params]
  by_cases hr : (st.detector.isNone || blobParamsChanged st.cache st.params) = true
  · rw [if_pos hr]; exact blobParamsChanged_ofParams st.params
  · rw [if_neg hr]
    rcases Bool.or_eq_false_iff.mp (Bool.not_eq_true _ ▸ hr : _) with ⟨_, hc⟩
    exact hc

/-- A concrete valid 16x16 BGRA input view. -/
def view16 : CpuPixelView := ⟨some (List.replicate 1024 0), 16, 16⟩

/-- C4 (amended): on every BlobTrack process call that reaches the
detection stage, the detector object is rebuilt if and only if it does not
exist (never built, or released by cleanup) or at least one of the eight
cached parameter values differs from the current parameter value; when no
rebuild happens the detector and the cache are untouched; after any rebuild
the cache equals the current parameter values; and a second cook with
identical parameters and no intervening cleanup constructs no further
detector. -/
theorem c4_rebuild_gating (K : BlobKernel) (st : BlobState) (v : CpuPixelView)
    (hd : st.dirty = true) (hv : v.valid = true) (hw : 16 ≤ v.width) (hh : 16 ≤ v.height) :
    ((BlobTrack.process K st (some v)).buildCount = st.buildCount + 1 ↔
      (st.detector = none ∨ blobParamsChanged st.cache st.params = true)) ∧
    (st.detector ≠ none → blobParamsChanged st.cache st.params = false →
      (BlobTrack.process K st (some v)).buildCount = st.buildCount ∧
      (BlobTrack.process K st (some v)).detector = st.detector ∧
      (BlobTrack.process K st (some v)).cache = st.cache) ∧
    ((st.detector = none ∨ blobParamsChanged st.cache st.params = true) →
      (BlobTrack.process K st (some v)).detector = some (buildDetectorParams st.params) ∧
      (BlobTrack.process K st (some v)).cache = BlobCache.ofParams st.params) ∧
    (BlobTrack.process K (BlobTrack.markDirty (BlobTrack.process K st (some v)))
        (some v)).buildCount = (BlobTrack.process K st (some v)).buildCount := by
  rw [blob_process_to_cook K st v hd hv hw hh]
  have hreb : (st.detector.isNone || blobParamsChanged st.cache st.params) = true ↔
      (st.detector = none ∨ blobParamsChanged st.cache st.params = true) := by
    rw [Bool.or_eq_true, Option.isNone_iff_eq_none]
  refine ⟨?_, ?_, ?_, ?_⟩
  · rw [blob_cook_buildCount]
    by_cases hr : (st.detector.isNone || blobParamsChanged st.cache st.params) = true
    · rw [if_pos hr]
      simp [hreb.mp hr]
    · rw [if_neg hr]
      constructor
      · intro habs; omega
      · intro hor; exact absurd (hreb.mpr hor) hr
  · intro hdet hch
    have hr : (st.detector.isNone || blobParamsChanged st.cache st.params) = false := by
      rcases Option.ne_none_iff_exists'.mp hdet with ⟨d, hdd⟩
      simp [hdd, hch]
    rw [blob_cook_buildCount, blob_cook_detector, blob_cook_cache,
        hr]
    rcases Option.ne_none_iff_exists'.mp hdet with ⟨d, hdd⟩
    simp [hdd]
  · intro hor
    have hr := hreb.mpr hor
    rw [blob_cook_detector, blob_cook_cache, hr]
    simp
  · have hd2 : (BlobTrack.markDirty (BlobTrack.cook K st v)).dirty = true := rfl
    have hstep : BlobTrack.process K (BlobTrack.markDirty (BlobTrack.cook K st v)) (some v) =
        BlobTrack.cook K (BlobTrack.markDirty (BlobTrack.cook K st v)) v :=
      blob_process_to_cook K _ v hd2 hv hw hh
    rw [hstep, blob_cook_buildCount]
    have hdet2 : (BlobTrack.markDirty (BlobTrack.cook K st v)).detector.isNone = false := by
      simp [BlobTrack.markDirty, blob_cook_detector]
    have hch2 : blobParamsChanged (BlobTrack.markDirty (BlobTrack.cook K st v)).cache
        (BlobTrack.markDirty (BlobTrack.cook K st v)).params = false := by
      have := blob_cook_cache_settled K st v
      simpa [BlobTrack.markDirty] using this
    rw [hdet2, hch2]
    simp [BlobTrack.markDirty]

/-- Witness for C4's amended theorem: on a fresh operator (no detector yet)
the first cook performs exactly one detector construction. -/
theorem c4_rebuild_gating_witness :
    blobInit.detector = none ∧
    (BlobTrack.process trivBlobKernel blobInit (some view16)).buildCount =
      blobInit.buildCount + 1 :=
  ⟨rfl,
   (c4_rebuild_gating trivBlobKernel blobInit view16 rfl (by decide) (by decide)
      (by decide)).1.mpr (Or.inl rfl)⟩

/-- C4 counterexample to the claim as stated: after a cook, a cleanup (which
releases the detector but keeps the parameter cache) and a new frame, the
next cook rebuilds the detector although not one of the eight cached
parameter values differs from the current parameter values. -/
theorem c4_rebuild_iff_cex :
    blobParamsChanged
        (BlobTrack.markDirty (BlobTrack.cleanup
          (BlobTrack.process trivBlobKernel blobInit (some view16)))).cache
        (BlobTrack.markDirty (BlobTrack.cleanup
          (BlobTrack.process trivBlobKernel blobInit (some view16)))).params = false ∧
    (BlobTrack.process trivBlobKernel
        (BlobTrack.markDirty (BlobTrack.cleanup
          (BlobTrack.process trivBlobKernel blobInit (some view16))))
        (some view16)).buildCount =
      (BlobTrack.markDirty (BlobTrack.cleanup
          (BlobTrack.process trivBlobKernel blobInit (some view16)))).buildCount + 1 := by
  decide

theorem flow_process_to_cook (K : FlowKernel) (st : FlowState) (v : CpuPixelView)
    (hd : st.dirty = true) (hv : v.valid = true) (hw : 16 ≤ v.width) (hh : 16 ≤ v.height) :
    OpticalFlow.process K st (some v) = OpticalFlow.cook K st v := by
  have hno : ¬(v.width < 16 ∨ v.height < 16) := by omega
  simp [OpticalFlow.process, hd, hv, hno]

/-- C5: on every OpticalFlow cook, when no previous grayscale frame of the
current working resolution exists (first frame, or changed resolution) the
flow computation is skipped — the stored flow field is left untouched — and
the emitted output is a solid opaque black frame at the full input
resolution; and on every cook, whichever branch ran, the current
working-resolution luminance is stored as the previous frame, hasPrevFrame
is set, and the output dimensions are the full input dimensions. -/
theorem c5_flow_first_frame (K : FlowKernel) (st : FlowState) (v : CpuPixelView)
    (hd : st.dirty = true) (hv : v.valid = true) (hw : 16 ≤ v.width) (hh : 16 ≤ v.height) :
    (¬(st.hasPrevFrame = true ∧
        st.prevGray.width =
          (OpticalFlow.workingLuminance K st.params v.width.toNat v.height.toNat
            (v.data.getD [])).width ∧
        st.prevGray.height =
          (OpticalFlow.workingLuminance K st.params v.width.toNat v.height.toNat
            (v.data.getD [])).height) →
      (OpticalFlow.process K st (some v)).outputPixels =
        blackBGRA v.width.toNat v.height.toNat ∧
      (OpticalFlow.process K st (some v)).flow = st.flow) ∧
    (OpticalFlow.process K st (some v)).prevGray =
      OpticalFlow.workingLuminance K st.params v.width.toNat v.height.toNat (v.data.getD []) ∧
    (OpticalFlow.process K st (some v)).hasPrevFrame = true ∧
    (OpticalFlow.process K st (some v)).outputWidth = v.width ∧
    (OpticalFlow.process K st (some v)).outputHeight = v.height := by
  rw [flow_process_to_cook K st v hd hv hw hh]
  simp only [OpticalFlow.cook]
  by_cases hb : (st.hasPrevFrame &&
      (st.prevGray.width ==
        (OpticalFlow.workingLuminance K st.params v.width.toNat v.height.toNat
          (v.data.getD [])).width &&
       st.prevGray.height ==
        (OpticalFlow.workingLuminance K st.params v.width.toNat v.height.toNat
          (v.data.getD [])).height)) = true
  · rw [if_pos hb]
    simp only [Bool.and_eq_true, beq_iff_eq] at hb
    exact ⟨fun hnot => absurd ⟨hb.1, hb.2.1, hb.2.2⟩ hnot, rfl, rfl, rfl, rfl⟩
  · rw [if_neg hb]
    exact ⟨fun _ => ⟨rfl, rfl⟩, rfl, rfl, rfl, rfl⟩

/-- Witness for C5: a first frame into a fresh OpticalFlow operator emits
the solid opaque black 16x16 frame and stores the previous-frame state. -/
theorem c5_flow_first_frame_witness :
    flowInit.hasPrevFrame = false ∧
    (OpticalFlow.process trivFlowKernel flowInit (some view16)).outputPixels =
      blackBGRA 16 16 ∧
    (OpticalFlow.process trivFlowKernel flowInit (some view16)).hasPrevFrame = true :=
  ⟨rfl,
   ((c5_flow_first_frame trivFlowKernel flowInit view16 rfl (by decide) (by decide)
      (by decide)).1 (by decide)).1,
   (c5_flow_first_frame trivFlowKernel flowInit view16 rfl (by decide) (by decide)
      (by decide)).2.2.1⟩

/-- C6: the scale parameter declares the range [0.05, 1.0]
(optical_flow.h line 61), but process clamps the value to [0.1, 1.0]
(optical_flow.cpp line 136): the declared minimum 0.05 — a value inside the
declared range — is not used unchanged; the working-resolution scale
actually used for it is 0.1. -/
theorem c6_scale_clamp_bug :
    Frac.blt OpticalFlow.scaleDeclaredMin OpticalFlow.scaleDeclaredMax = true ∧
    OpticalFlow.effectiveScale OpticalFlow.scaleDeclaredMin = ⟨1, 10⟩ ∧
    Frac.beq (OpticalFlow.effectiveScale OpticalFlow.scaleDeclaredMin)
      OpticalFlow.scaleDeclaredMin = false := by
  decide

/-- C9: when both polarity flags are 0, BlobTrack builds the detector with
the color filter disabled and binarizes the visualization with the standard
(non-inverted) threshold — exactly the configuration used for "detect
both" (both flags 1) — rather than rejecting the configuration or
detecting nothing. -/
theorem c9_detect_both (p : BlobParams)
    (hb : p.detectBright = 0) (hd : p.detectDark = 0) :
    (buildDetectorParams p).filterByColor = false ∧
    blobBinarizeKind p = ThreshKind.binary ∧
    (buildDetectorParams p).filterByColor =
      (buildDetectorParams { p with detectBright := 1, detectDark := 1 }).filterByColor ∧
    blobBinarizeKind p = blobBinarizeKind { p with detectBright := 1, detectDark := 1 } := by
  refine ⟨?_, ?_, ?_, ?_⟩ <;> simp [buildDetectorParams, blobBinarizeKind, hb, hd]

/-- Witness for C9 at the default parameters with both flags off. -/
theorem c9_detect_both_witness :
    ({ BlobParams.defaults with detectBright := 0, detectDark := 0 } : BlobParams).detectBright
        = 0 ∧
    (buildDetectorParams
        { BlobParams.defaults with detectBright := 0, detectDark := 0 }).filterByColor
      = false :=
  ⟨rfl, (c9_detect_both { BlobParams.defaults with detectBright := 0, detectDark := 0 }
      rfl rfl).1⟩

theorem nat_floor_round_adjacent (n d : Nat) (hd : 0 < d) :
    n / d = (2 * n + d) / (2 * d) ∨ n / d + 1 = (2 * n + d) / (2 * d) := by
  have hmod := Nat.div_add_mod n d
  have hlt := Nat.mod_lt n hd
  have hee : (2 * d) * (n / d) = 2 * (d * (n / d)) := by ring
  have h1 : 2 * n + d = (2 * d) * (n / d) + (2 * (n % d) + d) := by omega
  rw [h1, Nat.mul_add_div (by omega)]
  have h2 : (2 * (n % d) + d) / (2 * d) ≤ 1 :=
    Nat.lt_succ_iff.mp (Nat.div_lt_of_lt_mul (by omega))
  rcases Nat.le_one_iff_eq_zero_or_eq_one.mp h2 with h | h <;> rw [h] <;> omega

theorem int_natCast_fdiv (n d : Nat) : ((n : Int)).fdiv (d : Int) = ((n / d : Nat) : Int) := by
  cases n with
  | zero => show (0 : Int) = _ ; simp
  | succ k => rfl

theorem Frac.floor_roundNearest_adjacent (a : Frac) (hnum : 0 ≤ a.num) (hden : 0 < a.den) :
    a.floor.toNat = a.roundNearest.toNat ∨ a.floor.toNat + 1 = a.roundNearest.toNat := by
  obtain ⟨n, hn⟩ := Int.eq_ofNat_of_zero_le hnum
  unfold Frac.floor Frac.roundNearest
  rw [hn]
  have hr : (2 * (n : Int) + (a.den : Int)) = ((2 * n + a.den : Nat) : Int) := by
    push_cast; ring
  have hr2 : (2 * (a.den : Int)) = ((2 * a.den : Nat) : Int) := by
    push_cast; ring
  rw [hr, hr2, int_natCast_fdiv, int_natCast_fdiv]
  rcases nat_floor_round_adjacent n a.den hden with h | h
  · left; rw [Int.toNat_natCast, Int.toNat_natCast, h]
  · right; rw [Int.toNat_natCast, Int.toNat_natCast, h]

theorem Frac.neg_den (a : Frac) : (-a).den = a.den := rfl

theorem Frac.mul_den (a b : Frac) : (a * b).den = a.den * b.den := rfl

theorem Frac.mul_num (a b : Frac) : (a * b).num = a.num * b.num := rfl

theorem Frac.add_num (a b : Frac) : (a + b).num = a.num * b.den + b.num * a.den := rfl

theorem Frac.add_den (a b : Frac) : (a + b).den = a.den * b.den := rfl

theorem Frac.numeral_num (n : Nat) : (OfNat.ofNat n : Frac).num = OfNat.ofNat n := rfl

theorem Frac.numeral_den (n : Nat) : (OfNat.ofNat n : Frac).den = 1 := rfl

theorem halfToFrac_den_pos (hb : Nat) : 0 < (halfToFrac hb).den := by
  simp only [halfToFrac]
  split
  · decide
  · split <;> split <;>
      simp only [Frac.neg_den, Frac.mul_den] <;> positivity

theorem alphaClampedF_den_pos (hb : Nat) : 0 < (alphaClampedF hb).den := by
  unfold alphaClampedF Frac.fmin Frac.fmax
  split
  · split
    · rw [Frac.mul_den, Frac.numeral_den, Nat.mul_one]
      exact halfToFrac_den_pos hb
    · decide
  · decide

theorem alphaClampedF_num_nonneg (hb : Nat) : 0 ≤ (alphaClampedF hb).num := by
  unfold alphaClampedF Frac.fmin Frac.fmax
  split
  · split
    · next hbx _ =>
      simp only [Frac.blt, decide_eq_true_eq] at hbx
      rw [show (0 : Frac).num = 0 from rfl, show (0 : Frac).den = 1 from rfl] at hbx
      simp only [Nat.cast_one, mul_one, zero_mul] at hbx
      omega
    · decide
  · decide

/-- C7 counterexample to the claim as stated: for the half pattern 0x3801
(the value 1025/2048, about 0.50049) the decoded alpha byte is 127 — the
code truncates min(255, max(0, a*255)) — while round-to-nearest of the same
scaled value is 128. -/
theorem c7_alpha_trunc_cex :
    halfExpField 0x3801 ≠ 31 ∧ decodeAlpha 0x3801 = 127 ∧ specAlphaRound 0x3801 = 128 := by
  decide

/-- C7 (amended): in the decode direction each color channel is the clamped
half value pushed through the sRGB encoding transfer function, scaled to
[0,255] with round-to-nearest (the code's +0.5-then-truncate of the
nonnegative value is exactly round-half-up); the alpha channel stays linear
but is clamped to [0,255] and truncated toward zero, which is round-to-
nearest minus at most one. -/
theorem c7_decode_rounding :
    (∀ (qpow : Frac → Frac) (hb : Nat),
      0 ≤ (linearToSrgbF qpow (halfToFrac hb)).num →
      decodeColorTerm qpow hb = specColorRound qpow hb) ∧
    (∀ hb : Nat, halfExpField hb ≠ 31 →
      decodeAlpha hb = specAlphaRound hb ∨ decodeAlpha hb + 1 = specAlphaRound hb) := by
  constructor
  · intro qpow hb _
    unfold decodeColorTerm specColorRound Frac.floor Frac.roundNearest
    congr 1 <;>
      simp only [Frac.add_num, Frac.add_den, Frac.mul_num, Frac.mul_den,
        Frac.numeral_num, Frac.numeral_den] <;>
      push_cast <;> ring
  · intro hb _
    exact Frac.floor_roundNearest_adjacent (alphaClampedF hb)
      (alphaClampedF_num_nonneg hb) (alphaClampedF_den_pos hb)

/-- Witness for C7's amended theorem at the half pattern 0x3801 with the
identity in place of powf. -/
theorem c7_decode_rounding_witness :
    decodeColorTerm (fun x => x) 0x3801 = specColorRound (fun x => x) 0x3801 ∧
    (decodeAlpha 0x3801 = specAlphaRound 0x3801 ∨
      decodeAlpha 0x3801 + 1 = specAlphaRound 0x3801) :=
  ⟨c7_decode_rounding.1 (fun x => x) 0x3801 (by decide),
   c7_decode_rounding.2 0x3801 (by decide)⟩

theorem floatClampBits_sign (bits : Nat) : floatClampBits bits / 2 ^ 31 % 2 = 0 := by
  simp only [floatClampBits]
  split
  · decide
  · split
    · decide
    · split
      · decide
      · next h _ => omega

theorem floatClampBits_high (bits : Nat) (hsign : bits / 2 ^ 31 % 2 = 0)
    (hge : bits65504 ≤ bits) : floatClampBits bits = bits65504 := by
  simp only [floatClampBits]
  split
  · rfl
  · split
    · next h => omega
    · split
      · rfl
      · next h =>
        have : bits = bits65504 := by
          unfold bits65504 at *; omega
        rw [this]

/-- C8 counterexample to the claim as stated: 0x47800000 is the binary32
pattern of 65536.0f, whose rebased exponent 143-127+15 = 31 reaches the
half-float maximum exponent, yet floatToHalf yields 0x7BFF (the largest
finite half, 65504) and not the infinity pattern 0x7C00 — the clamp to
65504 runs before the packing, so the packing's infinity branch is never
reached. -/
theorem c8_overflow_sat_cex :
    ((0x47800000 / 2 ^ 23 % 2 ^ 8 : Nat) : Int) - 127 + 15 = 31 ∧
    floatToHalf 0x47800000 = 0x7BFF ∧ floatToHalf 0x47800000 ≠ 0x7C00 := by
  decide

/-- C8 (amended): floatToHalf first clamps to [0, 65504] and then packs;
consequently any input whose clamped value has a rebased exponent at or
below zero (denormals and anything below the half-normal range) flushes to
the (positive) signed zero; any nonnegative input at or above 65504 —
including infinity and NaN patterns — saturates to the largest finite half
0x7BFF rather than infinity; and negative inputs clamp to positive zero. -/
theorem c8_half_pack :
    (∀ bits : Nat, floatClampBits bits / 2 ^ 23 % 2 ^ 8 ≤ 112 → floatToHalf bits = 0) ∧
    (∀ bits : Nat, bits / 2 ^ 31 % 2 = 0 → bits65504 ≤ bits → floatToHalf bits = 0x7BFF) ∧
    (∀ bits : Nat, bits / 2 ^ 31 % 2 = 1 →
      ¬(bits / 2 ^ 23 % 2 ^ 8 = 255 ∧ bits % 2 ^ 23 ≠ 0) → floatToHalf bits = 0) := by
  refine ⟨fun bits h => ?_, fun bits hsign hge => ?_, fun bits hsign hnn => ?_⟩
  · have hs := floatClampBits_sign bits
    have he : ((floatClampBits bits / 2 ^ 23 % 2 ^ 8 : Nat) : Int) - 127 + 15 ≤ 0 := by
      omega
    simp only [floatToHalf, packHalfBits]
    rw [if_pos he, hs]
    simp
  · rw [floatToHalf, floatClampBits_high bits hsign hge]
    decide
  · simp only [floatToHalf, floatClampBits]
    rw [if_neg hnn, if_pos hsign]
    decide

/-- Witness for C8's amended theorem: the smallest positive binary32
denormal flushes to zero, the infinity pattern saturates to 0x7BFF, and
-1.0f clamps to zero. -/
theorem c8_half_pack_witness :
    floatClampBits 1 / 2 ^ 23 % 2 ^ 8 ≤ 112 ∧ floatToHalf 1 = 0 ∧
    floatToHalf 0x7F800000 = 0x7BFF ∧ floatToHalf 0xBF800000 = 0 :=
  ⟨by decide, c8_half_pack.1 1 (by decide),
   c8_half_pack.2.1 0x7F800000 (by decide) (by decide),
   c8_half_pack.2.2 0xBF800000 (by decide) (by decide)⟩

theorem contours_process_to_cook (K : ContoursKernel) (st : ContoursState) (v : CpuPixelView)
    (hd : st.dirty = true) (hv : v.valid = true) (hw : 16 ≤ v.width) (hh : 16 ≤ v.height) :
    Contours.process K st (some v) = Contours.cook K st v := by
  have hno : ¬(v.width < 16 ∨ v.height < 16) := by omega
  simp [Contours.process, hd, hv, hno]

/-- The output-buffer invariant every operator maintains between process
calls: empty output with zero dimensions before the first cook (and after
cleanup), else dimensions at least 16 with the buffer holding exactly
width*height*4 bytes. -/
def outputBufOK (pix : Bytes) (w h : Int) : Prop :=
  (pix = [] ∧ w = 0 ∧ h = 0) ∨ (16 ≤ w ∧ 16 ≤ h ∧ pix.length = w.toNat * h.toNat * 4)

/-- The common shape of the three cpuPixelView methods, as a function of
the three output fields. -/
def mkView (pix : Bytes) (w h : Int) : CpuPixelView :=
  if pix.isEmpty ∨ w ≤ 0 ∨ h ≤ 0 then CpuPixelView.empty
  else ⟨some pix, w, h⟩

theorem contours_cpuPixelView_eq (st : ContoursState) :
    Contours.cpuPixelView st = mkView st.outputPixels st.outputWidth st.outputHeight := rfl

theorem blob_cpuPixelView_eq (st : BlobState) :
    BlobTrack.cpuPixelView st = mkView st.outputPixels st.outputWidth st.outputHeight := rfl

theorem flow_cpuPixelView_eq (st : FlowState) :
    OpticalFlow.cpuPixelView st = mkView st.outputPixels st.outputWidth st.outputHeight := rfl

theorem mkView_spec (pix : Bytes) (w h : Int) (hinv : outputBufOK pix w h) :
    (pix = [] ∧ mkView pix w h = CpuPixelView.empty) ∨
    ((mkView pix w h).valid = true ∧ 0 < (mkView pix w h).width ∧
      0 < (mkView pix w h).height ∧
      ((mkView pix w h).data.getD []).length =
        (mkView pix w h).width.toNat * (mkView pix w h).height.toNat * 4) := by
  rcases hinv with ⟨h1, h2, h3⟩ | ⟨hw, hh, hlen⟩
  · left
    subst h1; subst h2; subst h3
    exact ⟨rfl, by simp [mkView]⟩
  · right
    have hne : pix ≠ [] := by
      intro h0; rw [h0] at hlen; simp at hlen; omega
    have hcond : ¬(pix.isEmpty = true ∨ w ≤ 0 ∨ h ≤ 0) := by
      push_neg
      refine ⟨?_, by omega, by omega⟩
      simpa using hne
    simp only [mkView]
    rw [if_neg hcond]
    refine ⟨by simp [CpuPixelView.valid]; omega, by simp; omega, by simp; omega, ?_⟩
    simpa using hlen

/-- Operator lifecycles reachable on a Contours instance: construction,
process calls under any OpenCV kernel and input, new-frame dirty marking,
parameter writes, and cleanup. -/
inductive ContoursReach : ContoursState → Prop where
  | init : ContoursReach contoursInit
  | step (K : ContoursKernel) (inp : Option CpuPixelView) {s : ContoursState} :
      ContoursReach s → ContoursReach (Contours.process K s inp)
  | frame {s : ContoursState} : ContoursReach s → ContoursReach (Contours.markDirty s)
  | setP (p : ContoursParams) {s : ContoursState} :
      ContoursReach s → ContoursReach (Contours.setParams s p)
  | clean {s : ContoursState} : ContoursReach s → ContoursReach (Contours.cleanup s)

/-- Operator lifecycles reachable on a BlobTrack instance. -/
inductive BlobReach : BlobState → Prop where
  | init : BlobReach blobInit
  | step (K : BlobKernel) (inp : Option CpuPixelView) {s : BlobState} :
      BlobReach s → BlobReach (BlobTrack.process K s inp)
  | frame {s : BlobState} : BlobReach s → BlobReach (BlobTrack.markDirty s)
  | setP (p : BlobParams) {s : BlobState} :
      BlobReach s → BlobReach (BlobTrack.setParams s p)
  | clean {s : BlobState} : BlobReach s → BlobReach (BlobTrack.cleanup s)

/-- Operator lifecycles reachable on an OpticalFlow instance. -/
inductive FlowReach : FlowState → Prop where
  | init : FlowReach flowInit
  | step (K : FlowKernel) (inp : Option CpuPixelView) {s : FlowState} :
      FlowReach s → FlowReach (OpticalFlow.process K s inp)
  | frame {s : FlowState} : FlowReach s → FlowReach (OpticalFlow.markDirty s)
  | setP (p : FlowParams) {s : FlowState} :
      FlowReach s → FlowReach (OpticalFlow.setParams s p)
  | clean {s : FlowState} : FlowReach s → FlowReach (OpticalFlow.cleanup s)

theorem contours_process_cases (K : ContoursKernel) (st : ContoursState)
    (inp : Option CpuPixelView) :
    Contours.process K st inp = { st with dirty := false } ∨
    ∃ v, inp = some v ∧ 16 ≤ v.width ∧ 16 ≤ v.height ∧
      Contours.process K st inp = Contours.cook K st v := by
  by_cases hd : st.dirty = true
  · cases inp with
    | none => left; simp [Contours.process, hd]
    | some v =>
      by_cases hv : v.valid = true
      · by_cases hw : v.width < 16 ∨ v.height < 16
        · left
          apply contours_process_skip
          simp only [skipInput, hv, Bool.not_true, Bool.false_or, Bool.or_eq_true,
            decide_eq_true_eq]
          exact hw
        · right
          exact ⟨v, rfl, by omega, by omega,
            contours_process_to_cook K st v hd hv (by omega) (by omega)⟩
      · left
        apply contours_process_skip
        have hvf : v.valid = false := by revert hv; cases v.valid <;> simp
        simp [skipInput, hvf]
  · left
    have hdf : st.dirty = false := by revert hd; cases st.dirty <;> simp
    rw [contours_process_not_dirty K st inp hdf]
    cases st; simp_all

theorem blob_process_cases (K : BlobKernel) (st : BlobState)
    (inp : Option CpuPixelView) :
    BlobTrack.process K st inp = { st with dirty := false } ∨
    ∃ v, inp = some v ∧ 16 ≤ v.width ∧ 16 ≤ v.height ∧
      BlobTrack.process K st inp = BlobTrack.cook K st v := by
  by_cases hd : st.dirty = true
  · cases inp with
    | none => left; simp [BlobTrack.process, hd]
    | some v =>
      by_cases hv : v.valid = true
      · by_cases hw : v.width < 16 ∨ v.height < 16
        · left
          apply blob_process_skip
          simp only [skipInput, hv, Bool.not_true, Bool.false_or, Bool.or_eq_true,
            decide_eq_true_eq]
          exact hw
        · right
          exact ⟨v, rfl, by omega, by omega,
            blob_process_to_cook K st v hd hv (by omega) (by omega)⟩
      · left
        apply blob_process_skip
        have hvf : v.valid = false := by revert hv; cases v.valid <;> simp
        simp [skipInput, hvf]
  · left
    have hdf : st.dirty = false := by revert hd; cases st.dirty <;> simp
    rw [blob_process_not_dirty K st inp hdf]
    cases st; simp_all

theorem flow_process_cases (K : FlowKernel) (st : FlowState)
    (inp : Option CpuPixelView) :
    OpticalFlow.process K st inp = { st with dirty := false } ∨
    ∃ v, inp = some v ∧ 16 ≤ v.width ∧ 16 ≤ v.height ∧
      OpticalFlow.process K st inp = OpticalFlow.cook K st v := by
  by_cases hd : st.dirty = true
  · cases inp with
    | none => left; simp [OpticalFlow.process, hd]
    | some v =>
      by_cases hv : v.valid = true
      · by_cases hw : v.width < 16 ∨ v.height < 16
        · left
          apply flow_process_skip
          simp only [skipInput, hv, Bool.not_true, Bool.false_or, Bool.or_eq_true,
            decide_eq_true_eq]
          exact hw
        · right
          exact ⟨v, rfl, by omega, by omega,
            flow_process_to_cook K st v hd hv (by omega) (by omega)⟩
      · left
        apply flow_process_skip
        have hvf : v.valid = false := by revert hv; cases v.valid <;> simp
        simp [skipInput, hvf]
  · left
    have hdf : st.dirty = false := by revert hd; cases st.dirty <;> simp
    rw [flow_process_not_dirty K st inp hdf]
    cases st; simp_all

theorem contours_outputBufOK {s : ContoursState} (hs : ContoursReach s) :
    outputBufOK s.outputPixels s.outputWidth s.outputHeight := by
  induction hs with
  | init => left; exact ⟨rfl, rfl, rfl⟩
  | step K inp hr ih =>
    rcases contours_process_cases K _ inp with heq | ⟨v, _, hw, hh, heq⟩
    · rw [heq]; exact ih
    · rw [heq]
      right
      refine ⟨hw, hh, ?_⟩
      simp only [Contours.cook]
      exact K.run_size _ _ _ _
  | frame hr ih => exact ih
  | setP p hr ih => exact ih
  | clean hr ih => left; exact ⟨rfl, rfl, rfl⟩

theorem blob_outputBufOK {s : BlobState} (hs : BlobReach s) :
    outputBufOK s.outputPixels s.outputWidth s.outputHeight := by
  induction hs with
  | init => left; exact ⟨rfl, rfl, rfl⟩
  | step K inp hr ih =>
    rcases blob_process_cases K _ inp with heq | ⟨v, _, hw, hh, heq⟩
    · rw [heq]; exact ih
    · rw [heq]
      right
      refine ⟨hw, hh, ?_⟩
      simp only [BlobTrack.cook]
      exact K.render_size _ _ _ _ _ _
  | frame hr ih => exact ih
  | setP p hr ih => exact ih
  | clean hr ih => left; exact ⟨rfl, rfl, rfl⟩

theorem flow_outputBufOK {s : FlowState} (hs : FlowReach s) :
    outputBufOK s.outputPixels s.outputWidth s.outputHeight := by
  induction hs with
  | init => left; exact ⟨rfl, rfl, rfl⟩
  | step K inp hr ih =>
    rcases flow_process_cases K _ inp with heq | ⟨v, _, hw, hh, heq⟩
    · rw [heq]; exact ih
    · rw [heq]
      simp only [OpticalFlow.cook]
      split
      · right; exact ⟨hw, hh, K.visualize_size _ _ _ _ _ _ _⟩
      · right; exact ⟨hw, hh, blackBGRA_length _ _⟩
  | frame hr ih => exact ih
  | setP p hr ih => exact ih
  | clean hr ih => left; exact ⟨rfl, rfl, rfl⟩

/-- C10: for every operator and every state reachable between process
calls, the exposed pixel view is either the invalid (empty) view — exactly
when no computed output is stored (before the first cook, or after
cleanup) — or a valid view with positive dimensions whose backing buffer
holds exactly width*height*4 bytes. -/
theorem c10_view_invariant :
    (∀ s : ContoursState, ContoursReach s →
      (s.outputPixels = [] ∧ Contours.cpuPixelView s = CpuPixelView.empty) ∨
      ((Contours.cpuPixelView s).valid = true ∧ 0 < (Contours.cpuPixelView s).width ∧
        0 < (Contours.cpuPixelView s).height ∧
        ((Contours.cpuPixelView s).data.getD []).length =
          (Contours.cpuPixelView s).width.toNat * (Contours.cpuPixelView s).height.toNat * 4)) ∧
    (∀ s : BlobState, BlobReach s →
      (s.outputPixels = [] ∧ BlobTrack.cpuPixelView s = CpuPixelView.empty) ∨
      ((BlobTrack.cpuPixelView s).valid = true ∧ 0 < (BlobTrack.cpuPixelView s).width ∧
        0 < (BlobTrack.cpuPixelView s).height ∧
        ((BlobTrack.cpuPixelView s).data.getD []).length =
          (BlobTrack.cpuPixelView s).width.toNat * (BlobTrack.cpuPixelView s).height.toNat * 4)) ∧
    (∀ s : FlowState, FlowReach s →
      (s.outputPixels = [] ∧ OpticalFlow.cpuPixelView s = CpuPixelView.empty) ∨
      ((OpticalFlow.cpuPixelView s).valid = true ∧ 0 < (OpticalFlow.cpuPixelView s).width ∧
        0 < (OpticalFlow.cpuPixelView s).height ∧
        ((OpticalFlow.cpuPixelView s).data.getD []).length =
          (OpticalFlow.cpuPixelView s).width.toNat *
            (OpticalFlow.cpuPixelView s).height.toNat * 4)) := by
  refine ⟨fun s hs => ?_, fun s hs => ?_, fun s hs => ?_⟩
  · rw [contours_cpuPixelView_eq]
    exact mkView_spec _ _ _ (contours_outputBufOK hs)
  · rw [blob_cpuPixelView_eq]
    exact mkView_spec _ _ _ (blob_outputBufOK hs)
  · rw [flow_cpuPixelView_eq]
    exact mkView_spec _ _ _ (flow_outputBufOK hs)

/-- Witness for C10 at two concrete reachable states: the fresh Contours
operator (invalid view, no output yet) and a BlobTrack instance right
after its first cook (valid view with a 16*16*4-byte buffer). -/
theorem c10_view_invariant_witness :
    ((contoursInit.outputPixels = [] ∧
        Contours.cpuPixelView contoursInit = CpuPixelView.empty) ∨
      ((Contours.cpuPixelView contoursInit).valid = true ∧
        0 < (Contours.cpuPixelView contoursInit).width ∧
        0 < (Contours.cpuPixelView contoursInit).height ∧
        ((Contours.cpuPixelView contoursInit).data.getD []).length =
          (Contours.cpuPixelView contoursInit).width.toNat *
            (Contours.cpuPixelView contoursInit).height.toNat * 4)) ∧
    (((BlobTrack.process trivBlobKernel blobInit (some view16)).outputPixels = [] ∧
        BlobTrack.cpuPixelView (BlobTrack.process trivBlobKernel blobInit (some view16)) =
          CpuPixelView.empty) ∨
      ((BlobTrack.cpuPixelView
          (BlobTrack.process trivBlobKernel blobInit (some view16))).valid = true ∧
        0 < (BlobTrack.cpuPixelView
          (BlobTrack.process trivBlobKernel blobInit (some view16))).width ∧
        0 < (BlobTrack.cpuPixelView
          (BlobTrack.process trivBlobKernel blobInit (some view16))).height ∧
        ((BlobTrack.cpuPixelView
            (BlobTrack.process trivBlobKernel blobInit (some view16))).data.getD []).length =
          (BlobTrack.cpuPixelView
            (BlobTrack.process trivBlobKernel blobInit (some view16))).width.toNat *
            (BlobTrack.cpuPixelView
              (BlobTrack.process trivBlobKernel blobInit (some view16))).height.toNat * 4)) :=
  ⟨c10_view_invariant.1 contoursInit ContoursReach.init,
   c10_view_invariant.2.1 (BlobTrack.process trivBlobKernel blobInit (some view16))
     (BlobReach.step trivBlobKernel (some view16) BlobReach.init)⟩
